import Mathlib

/-!
Verification of the FileSweep core against its specification.

The Python sources are shallowly embedded: file contents are `List Nat`
(byte values), paths are `String`, Python dictionaries are association
lists updated in place, and Python exceptions become an explicit error
type.  Each definition mirrors one function of the repository; the
theorems at the end of the file settle the spec claims.
-/

set_option maxRecDepth 4096

namespace FileSweep

/-- Python exception kinds that the embedded code can raise. -/
inductive PyErr where
  | typeError
  | attributeError
  | valueError
  | keyError
  | runtimeError
  | itemExists
  | itemNotFound
  | invalidItem
  deriving DecidableEq, Repr

instance {ε α : Type} [DecidableEq ε] [DecidableEq α] :
    DecidableEq (Except ε α) := fun a b =>
  match a, b with
  | .ok x, .ok y => decidable_of_iff (x = y) (by simp)
  | .ok _, .error _ => .isFalse (fun hc => by cases hc)
  | .error _, .ok _ => .isFalse (fun hc => by cases hc)
  | .error e, .error f => decidable_of_iff (e = f) (by simp)

/-! ### Python dict as an association list (insertion ordered) -/

/-- `d[k]` lookup returning `none` when the key is absent. -/
def dget? {α β : Type} [DecidableEq α] (d : List (α × β)) (k : α) : Option β :=
  match d with
  | [] => none
  | (k', v) :: rest => if k = k' then some v else dget? rest k

/-- `d[k] = v`: update in place if the key exists, else append (dicts keep
insertion order). -/
def dset {α β : Type} [DecidableEq α] (d : List (α × β)) (k : α) (v : β) :
    List (α × β) :=
  match d with
  | [] => [(k, v)]
  | (k', v') :: rest =>
    if k = k' then (k, v) :: rest else (k', v') :: dset rest k v

/-- `del d[k]` / `d.pop(k)` on a present key: remove the entry. -/
def dpop {α β : Type} [DecidableEq α] (d : List (α × β)) (k : α) :
    List (α × β) :=
  match d with
  | [] => []
  | (k', v') :: rest => if k = k' then rest else (k', v') :: dpop rest k

/-! ### src/hasher.py -/

/-- One of the four 16-byte chunks of `read_16b`:
`bs = [bytearray(f.read(16).ljust(16, b'\0')) for _ in range(4)]`.
Sequential 16-byte reads, right padded with zero bytes. -/
def chunk16 (content : List Nat) (j : Nat) : List Nat :=
  let c := (content.drop (16 * j)).take 16
  c ++ List.replicate (16 - c.length) 0

/-- The rotation expression of `read_16b`:
`rotated = ((chunk[i] << n) & 0xFF) | (chunk[i] >> (8 - n))`. -/
def rotByte (x n : Nat) : Nat :=
  ((x <<< n) &&& 0xFF) ||| (x >>> (8 - n))

/-- The 16 output bytes of `read_16b`: for each `i`, XOR over the four
chunks of the rotated byte `chunk[i]` by `(i + j) % 8` bits. -/
def res16 (content : List Nat) : List Nat :=
  (List.range 16).map (fun i =>
    (List.range 4).foldl
      (fun val j => val ^^^ rotByte ((chunk16 content j).getD i 0) ((i + j) % 8))
      0)

/-- Lowercase hex digit for a value below 16 (`bytearray.hex()`). -/
def hexChar (n : Nat) : Char :=
  if n < 10 then Char.ofNat (48 + n) else Char.ofNat (87 + n)

/-- Two lowercase hex digits of one byte. -/
def byteToHex (b : Nat) : List Char :=
  [hexChar (b / 16), hexChar (b % 16)]

/-- `read_16b` of src/hasher.py: the 32-character lowercase hex string of
the 16 mashed bytes, computed from the file's content bytes. -/
def read_16b (content : List Nat) : String :=
  String.mk (((res16 content).map byteToHex).flatten)

/-- `chunk_size or 8192` in `hash_file`: `None` and `0` are falsy. -/
def effChunk (chunk_size : Option Nat) : Nat :=
  match chunk_size with
  | none => 8192
  | some 0 => 8192
  | some n => n

/-- The read loop of `hash_file`: feed chunks of `c` bytes to the digest,
accumulate `read`, and break once `read >= max_read` (when a cap is set)
or at end of file.  Returns the concatenation of all bytes fed. -/
def fedLoop (content : List Nat) (c : Nat) (mr : Option Nat) (readSoFar : Nat) :
    List Nat :=
  let chunk := content.take c
  if h : chunk.isEmpty then []
  else
    let read := readSoFar + chunk.length
    let stop : Bool :=
      match mr with
      | some m => decide (read ≥ m)
      | none => false
    if stop then chunk
    else chunk ++ fedLoop (content.drop c) c mr read
termination_by content.length
decreasing_by
  simp only [List.length_drop]
  have hc : content ≠ [] ∧ c ≠ 0 := by
    by_contra hcon
    rcases not_and_or.mp hcon with h1 | h2
    · simp only [not_not] at h1
      subst h1
      simp [chunk] at h
    · simp only [not_not] at h2
      subst h2
      simp [chunk] at h
  have := List.length_pos.mpr hc.1
  omega

/-- The byte stream that `hash_file` of src/hasher.py feeds to the digest
object (the digest algorithm itself is an external collaborator and is
passed in as an opaque `digest` function over the fed byte stream). -/
def fedBytes (content : List Nat) (chunk_size max_read : Option Nat) :
    List Nat :=
  fedLoop content (effChunk chunk_size) max_read 0

/-- `hash_file` of src/hasher.py with the digest registry abstracted as a
function of the fed byte stream. -/
def hash_file (digest : List Nat → String) (content : List Nat)
    (chunk_size max_read : Option Nat) : String :=
  digest (fedBytes content chunk_size max_read)

/-- Modelled from the spec: `rotate_left_8bit(x, n) = ((x << n) | (x >> (8-n))) & 0xFF`,
with the convention that `n = 0` returns `x` unchanged. -/
def rotate_left_8bit (x n : Nat) : Nat :=
  if n = 0 then x else ((x <<< n) ||| (x >>> (8 - n))) &&& 0xFF

/-! ### src/config/classes.py: FileInfo -/

/-- The canonical record for a known file (`FileInfo` NamedTuple).
Paths are modelled as strings; timestamps and ids as integers. -/
structure FileInfo where
  path : String
  size : Int
  modified : Int
  accessed : Int
  created : Int
  inode : Int
  device : Int
  file_hash : String
  first_16b : String
  deriving DecidableEq, Repr

/-- `IncompleteFileInfo`: the same record before the two fingerprint
fields are computed (they are `None` in the source). -/
structure IncompleteFileInfo where
  path : String
  size : Int
  modified : Int
  accessed : Int
  created : Int
  inode : Int
  device : Int
  deriving DecidableEq, Repr

/-- `IncompleteFileInfo.complete(file_hash, first_16b)`. -/
def IncompleteFileInfo.complete (f : IncompleteFileInfo)
    (file_hash first_16b : String) : FileInfo :=
  { path := f.path, size := f.size, modified := f.modified,
    accessed := f.accessed, created := f.created, inode := f.inode,
    device := f.device, file_hash := file_hash, first_16b := first_16b }

/-! ### src/statdb.py: Bag and StatDB

The `Lock` and the boolean dirty flag of the source do not affect the
lookup structure; the dirty flag is kept, the lock (single exclusive
mutex around every public method) has no observable effect on the
sequential semantics modelled here. -/

/-- `Bag` is a dict mapping keys to lists of values. -/
abbrev Bag := List (String × List Nat)

/-- `Bag.add(key, value)`: create the list if absent, then append. -/
def Bag.add (b : Bag) (k : String) (v : Nat) : Bag :=
  match dget? b k with
  | some vs => dset b k (vs ++ [v])
  | none => b ++ [(k, [v])]

/-- `list.remove(value)`: drop the first occurrence (the surrounding
`try` in `Bag.remove` swallows the `ValueError` when absent). -/
def removeFirst (l : List Nat) (v : Nat) : List Nat :=
  match l with
  | [] => []
  | x :: xs => if x = v then xs else x :: removeFirst xs v

/-- `Bag.remove(key, value)`: remove the first occurrence of `value`
under `key` and delete the key when its list becomes empty; no-op when
the key or the value is absent (`ValueError` is caught). -/
def Bag.remove (b : Bag) (k : String) (v : Nat) : Bag :=
  match dget? b k with
  | none => b
  | some vs =>
    if v ∈ vs then
      let vs' := removeFirst vs v
      if vs'.isEmpty then dpop b k else dset b k vs'
    else b

/-- The in-memory state of `StatDB` after `load()` initialised the
tables: primary table, unique path and (device, inode) indexes, and the
two non-unique `Bag` indexes. -/
structure StatDB where
  _index : Nat
  _dirty : Bool
  file_info : List (Nat × FileInfo)
  path_index : List (String × Nat)
  dvin_index : List ((Int × Int) × Nat)
  hash_index : Bag
  f16b_index : Bag
  deriving DecidableEq, Repr

/-- The state right after `load()` with no cache file: every table empty. -/
def StatDB.empty : StatDB :=
  { _index := 0, _dirty := false, file_info := [], path_index := [],
    dvin_index := [], hash_index := [], f16b_index := [] }

/-- `StatDB._add_item`: allocate the next index and fill the tables.
After the two dict assignments, the source executes
`self.hash_index[finfo.file_hash] = idx`; `Bag` defines `__getitem__`
but no `__setitem__`, so this subscript assignment raises `TypeError`
at run time, before the `Bag.add` calls below it are reached.  The
returned state is the partially mutated database. -/
def StatDB._add_item (db : StatDB) (finfo : FileInfo) :
    StatDB × Except PyErr Nat :=
  let idx := db._index + 1
  let db := { db with _index := idx }
  let db := { db with file_info := dset db.file_info idx finfo }
  let db := { db with path_index := dset db.path_index finfo.path idx }
  (db, .error .typeError)

/-- `StatDB.add_item(finfo)`: raise `ItemExistsError` when the path is
already present, else mark dirty and delegate to `_add_item`. -/
def StatDB.add_item (db : StatDB) (finfo : FileInfo) :
    StatDB × Except PyErr Nat :=
  if (dget? db.path_index finfo.path).isSome then
    (db, .error .itemExists)
  else
    let db := { db with _dirty := true }
    db._add_item finfo

/-- `StatDB.update_item(info, index)`: require `info.path` present;
with an explicit index, require the index present and the path
unchanged; then repair the hash and first-16-bytes secondary indexes
and overwrite the primary record. -/
def StatDB.update_item (db : StatDB) (info : FileInfo) (index : Option Nat) :
    StatDB × Except PyErr Nat :=
  match dget? db.path_index info.path with
  | none => (db, .error .itemNotFound)
  | some pathIdx =>
    let db := { db with _dirty := true }
    let found : Except PyErr (Nat × FileInfo) :=
      match index with
      | none =>
        match dget? db.file_info pathIdx with
        | some old => .ok (pathIdx, old)
        | none => .error .keyError
      | some i =>
        match dget? db.file_info i with
        | none => .error .itemNotFound
        | some old =>
          if old.path ≠ info.path then .error .invalidItem else .ok (i, old)
    match found with
    | .error e => (db, .error e)
    | .ok (idx, old_info) =>
      let db := { db with hash_index := db.hash_index.remove old_info.file_hash idx }
      let db := { db with f16b_index := db.f16b_index.remove old_info.first_16b idx }
      let db := { db with file_info := dset db.file_info idx info }
      let db := { db with hash_index := db.hash_index.add info.file_hash idx }
      let db := { db with f16b_index := db.f16b_index.add info.first_16b idx }
      (db, .ok idx)

/-- `StatDB.pop_item(path=...)`: look the record up by path, then remove
it from the primary table and from every secondary index. -/
def StatDB.pop_item_by_path (db : StatDB) (path : String) :
    StatDB × Except PyErr FileInfo :=
  match dget? db.path_index path with
  | none => (db, .error .itemNotFound)
  | some idx =>
    match dget? db.file_info idx with
    | none => (db, .error .keyError)
    | some finfo =>
      let db := { db with _dirty := true }
      let db := { db with file_info := dpop db.file_info idx }
      let db := { db with path_index := dpop db.path_index finfo.path }
      let db := { db with hash_index := db.hash_index.remove finfo.file_hash idx }
      let db := { db with f16b_index := db.f16b_index.remove finfo.first_16b idx }
      let db := { db with dvin_index := dpop db.dvin_index (finfo.device, finfo.inode) }
      (db, .ok finfo)

/-- `StatDB._get_item(path=...)` wrapped by `get_item`: `None` instead of
`KeyError`, optionally returning the index. -/
def StatDB.get_item_by_path (db : StatDB) (path : String) :
    Option (Nat × FileInfo) :=
  match dget? db.path_index path with
  | none => none
  | some idx =>
    match dget? db.file_info idx with
    | none => none
    | some f => some (idx, f)

/-- `StatDB._get_item(device_inode=...)` wrapped by `get_item`. -/
def StatDB.get_item_by_dvin (db : StatDB) (dv : Int × Int) :
    Option (Nat × FileInfo) :=
  match dget? db.dvin_index dv with
  | none => none
  | some idx =>
    match dget? db.file_info idx with
    | none => none
    | some f => some (idx, f)

/-- Membership of an index in a `Bag` under a key. -/
def Bag.holds (b : Bag) (k : String) (i : Nat) : Bool :=
  match dget? b k with
  | none => false
  | some vs => i ∈ vs

/-- The stat-index invariant of the spec, as a decidable check: every
secondary-index entry points to a primary record whose corresponding
field equals the key, and every primary record is referenced by each of
its secondary keys (path, (device, inode), hash, first 16 bytes).  The
at-most-one-record-per-key part of the claim holds by construction here
because `dset` never duplicates a dict key. -/
def StatDB.consistent (db : StatDB) : Bool :=
  db.path_index.all (fun (p, i) =>
    match dget? db.file_info i with
    | some f => f.path = p
    | none => false) &&
  db.dvin_index.all (fun (dv, i) =>
    match dget? db.file_info i with
    | some f => (f.device, f.inode) = dv
    | none => false) &&
  db.hash_index.all (fun (h, vs) => vs.all (fun i =>
    match dget? db.file_info i with
    | some f => f.file_hash = h
    | none => false)) &&
  db.f16b_index.all (fun (h, vs) => vs.all (fun i =>
    match dget? db.file_info i with
    | some f => f.first_16b = h
    | none => false)) &&
  db.file_info.all (fun (i, f) =>
    dget? db.path_index f.path = some i &&
    dget? db.dvin_index (f.device, f.inode) = some i &&
    db.hash_index.holds f.file_hash i &&
    db.f16b_index.holds f.first_16b i)

/-! ### pathlib semantics used by the pattern algebra -/

/-- `Path.name`: the final path component (text after the last `/`). -/
def pathName (p : String) : String :=
  String.mk (p.toList.foldl (fun acc ch => if ch = '/' then [] else acc ++ [ch]) [])

/-- Index of the last occurrence of `c` in `l`, if any. -/
def rfindIdx (l : List Char) (c : Char) : Option Nat :=
  match l with
  | [] => none
  | x :: xs =>
    match rfindIdx xs c with
    | some i => some (i + 1)
    | none => if x = c then some 0 else none

/-- `Path.suffix`: the extension of the final component; empty unless the
last dot of the name sits strictly inside it (`0 < i < len(name) - 1`). -/
def pathSuffix (p : String) : String :=
  let n := (pathName p).toList
  match rfindIdx n (Char.ofNat 46) with
  | none => ""
  | some i => if 0 < i ∧ i + 1 < n.length then String.mk (n.drop i) else ""

/-! ### src/config/classes.py: pattern algebra -/

inductive NPType where
  | extension
  | regex
  | name
  deriving DecidableEq, Repr

inductive DPType where
  | modified
  | accessed
  | created
  deriving DecidableEq, Repr

inductive MergeMode where
  | all
  | any
  deriving DecidableEq, Repr

mutual
/-- The tagged union `AnyPattern = Pattern | NamePattern | DatePattern |
SizePattern` of the source, as one inductive (composite children are a
mutually defined list so that equality stays decidable). -/
inductive AnyPattern where
  | nm (pattern : String) (type : NPType)
  | sz (min_size max_size : Option Int)
  | dt (min max : Option Int) (type : DPType)
  | comp (patterns : PatternList) (inverted : Bool) (mergemode : MergeMode)
  deriving DecidableEq

inductive PatternList where
  | nil
  | cons (head : AnyPattern) (tail : PatternList)
  deriving DecidableEq
end

/-- `NamePattern.match`: the Python regex engine for the `regex` kind is
an external collaborator, passed in as `rx pattern name`
(`re.fullmatch(pattern, name) is not None`). -/
def NamePattern_match (rx : String → String → Bool)
    (pattern : String) (type : NPType) (f : FileInfo) : Bool :=
  match type with
  | .extension =>
    if pattern = ".*" then true
    else pathSuffix f.path = pattern
  | .regex => rx pattern (pathName f.path)
  | .name =>
    if pattern = "*" then true
    else pathName f.path = pattern

/-- `SizePattern.match`: inclusive byte range, absent bound unconstrained. -/
def SizePattern_match (min_size max_size : Option Int) (f : FileInfo) : Bool :=
  (match min_size with
   | some m => decide (¬ f.size < m)
   | none => true) &&
  (match max_size with
   | some m => decide (¬ f.size > m)
   | none => true)

/-- `DatePattern.match`: the source computes
`modified_time = time_ns() - file.modified` and checks the bounds — the
`type` field (`modified`/`accessed`/`created`) is never consulted.
`now` stands for `time_ns()`. -/
def DatePattern_match (min max : Option Int) (_type : DPType) (now : Int)
    (f : FileInfo) : Bool :=
  let modified_time := now - f.modified
  (match min with
   | some m => decide (¬ modified_time < m)
   | none => true) &&
  (match max with
   | some m => decide (¬ modified_time > m)
   | none => true)

mutual
/-- `Pattern.match` over the whole algebra (`Pattern.match` dispatching
on the leaf classes); `all`/`any` short-circuit as in Python. -/
def AnyPattern.matchFile (rx : String → String → Bool) (now : Int)
    (p : AnyPattern) (f : FileInfo) : Bool :=
  match p with
  | .nm pattern type => NamePattern_match rx pattern type f
  | .sz mn mx => SizePattern_match mn mx f
  | .dt mn mx t => DatePattern_match mn mx t now f
  | .comp ps inverted mm =>
    match inverted, mm with
    | false, .all => PatternList.allMatch rx now ps f
    | false, .any => PatternList.anyMatch rx now ps f
    | true, .all => !(PatternList.allMatch rx now ps f)
    | true, .any => !(PatternList.anyMatch rx now ps f)

def PatternList.allMatch (rx : String → String → Bool) (now : Int)
    (ps : PatternList) (f : FileInfo) : Bool :=
  match ps with
  | .nil => true
  | .cons p t => AnyPattern.matchFile rx now p f && PatternList.allMatch rx now t f

def PatternList.anyMatch (rx : String → String → Bool) (now : Int)
    (ps : PatternList) (f : FileInfo) : Bool :=
  match ps with
  | .nil => false
  | .cons p t => AnyPattern.matchFile rx now p f || PatternList.anyMatch rx now t f
end

/-- Modelled from the spec: `DatePattern(min?, max?, kind)` matches when
`now_ns − chosen timestamp` lies in the closed interval, the chosen
timestamp being the file's `modified`, `accessed` or `created` field
according to `kind`. -/
def spec_DatePattern_match (min max : Option Int) (type : DPType) (now : Int)
    (f : FileInfo) : Bool :=
  let ts :=
    match type with
    | .modified => f.modified
    | .accessed => f.accessed
    | .created => f.created
  let age := now - ts
  (match min with
   | some m => decide (m ≤ age)
   | none => true) &&
  (match max with
   | some m => decide (age ≤ m)
   | none => true)

/-! ### src/filesweep/config/policy.py -/

inductive Policy where
  | KEEP
  | PROMPT
  | HARDLINK
  | TRASH
  | DELETE
  | DISCARD
  | ERASE
  | NOACTION
  deriving DecidableEq, Repr

/-- `policy_priority`: the fixed priority weights. -/
def policy_priority (p : Policy) : Nat :=
  match p with
  | .KEEP => 100
  | .PROMPT => 75
  | .HARDLINK => 50
  | .TRASH => 40
  | .DELETE => 30
  | .DISCARD => 20
  | .ERASE => 10
  | .NOACTION => 0

/-- `include_subdirs: bool | int` of `DirectoryConfig`. -/
inductive SubdirsCfg where
  | flag (b : Bool)
  | depth (n : Int)
  deriving DecidableEq, Repr

/-- `DirectoryConfig` of src/config/classes.py. -/
structure DirectoryConfig where
  path : String
  priority : Int
  include_subdirs : SubdirsCfg
  policy : Policy
  rename : Bool
  pattern : Option AnyPattern
  skip_subdirs : List String
  hidden : Bool
  deriving DecidableEq

/-! ### src/filesweep/filesweep.py: decision engine (`check_db`) -/

/-- The `Action` enum with its total ordering values. -/
inductive Action where
  | KEEP
  | RETIME
  | LINK
  | TRASH
  | DELETE
  | NOACTION
  | UNDEFINED
  deriving DecidableEq, Repr

/-- The integer values behind the `Action` ordering. -/
def Action.value (a : Action) : Int :=
  match a with
  | .KEEP => 10
  | .RETIME => 7
  | .LINK => 5
  | .TRASH => 2
  | .DELETE => 1
  | .NOACTION => 0
  | .UNDEFINED => -1

/-- The `Decision` dataclass. -/
structure Decision where
  dircfg : DirectoryConfig
  file_index : Nat
  file_info : FileInfo
  action : Action
  target : Option String
  time : Option Int
  deriving DecidableEq

/-- Mutate the decision stored under index `i` (the Python loop mutates
the shared `Decision` objects in `hash_decisions` in place). -/
def updDecision (decs : List (Nat × Decision)) (i : Nat)
    (g : Decision → Decision) : List (Nat × Decision) :=
  match dget? decs i with
  | some d => dset decs i (g d)
  | none => decs

/-- One iteration of the `for idx, decision in hash_decisions.items()`
match statement of `check_db`.  `widx` is the index of
`_highest_decision percent` (the winner); reads of `decision` and
`_highest_decision` go through the current table because the Python
objects are aliased. -/
def decisionCaseStep (decs : List (Nat × Decision)) (widx idx : Nat) :
    Except PyErr (List (Nat × Decision)) :=
  match dget? decs idx, dget? decs widx with
  | some a, some b =>
    if policy_priority a.dircfg.policy > policy_priority b.dircfg.policy then
      .error .runtimeError
    else if a = b ∧ a.dircfg.policy = .DISCARD then
      .ok (updDecision decs idx (fun d => { d with action := .TRASH }))
    else if a = b ∧ a.dircfg.policy = .ERASE then
      .ok (updDecision decs idx (fun d => { d with action := .DELETE }))
    else if a = b ∧ a.dircfg.rename = true ∧
        (a.dircfg.policy = .TRASH ∨ a.dircfg.policy = .DELETE) then
      -- winner in a rename folder: retime it to the newest duplicate time
      let decs := updDecision decs idx (fun d => { d with action := .RETIME })
      match dget? decs widx with
      | none => .error .keyError
      | some b1 =>
        let t :=
          match b1.time with
          | none => a.file_info.modified
          | some t0 => max t0 a.file_info.modified
        .ok (updDecision decs widx (fun d => { d with time := some t }))
    else if a.dircfg.path = b.dircfg.path ∧ a.dircfg.rename = true ∧
        (a.dircfg.policy = .TRASH ∨ a.dircfg.policy = .DELETE) then
      -- same folder as the winner: upgrade the winner to RETIME, and
      -- trash/delete the current file targeting the winner
      if b.action = .UNDEFINED ∨ b.action = .RETIME then
        let decs := updDecision decs widx (fun d => { d with action := .RETIME })
        let t :=
          match b.time with
          | none => a.file_info.modified
          | some t0 => max t0 a.file_info.modified
        let decs := updDecision decs widx (fun d => { d with time := some t })
        if a.dircfg.policy = .TRASH then
          .ok (updDecision decs idx
            (fun d => { d with action := .TRASH, target := some b.file_info.path }))
        else if a.dircfg.policy = .DELETE then
          .ok (updDecision decs idx
            (fun d => { d with action := .DELETE, target := some b.file_info.path }))
        else .error .runtimeError
      else .error .runtimeError
    else if a = b then
      .ok (updDecision decs idx (fun d => { d with action := .NOACTION }))
    else if a.dircfg.policy = .KEEP then
      .ok (updDecision decs idx (fun d => { d with action := .KEEP }))
    else if a.dircfg.policy = .PROMPT then
      .ok (updDecision decs idx (fun d => { d with action := .KEEP }))
    else if a.dircfg.policy = .HARDLINK then
      .ok (updDecision decs idx (fun d => { d with action := .KEEP }))
    else if a.dircfg.policy = .TRASH ∧
        policy_priority b.dircfg.policy ≥ policy_priority .TRASH then
      .ok (updDecision decs idx
        (fun d => { d with action := .TRASH, target := some b.file_info.path }))
    else if a.dircfg.policy = .DELETE ∧
        policy_priority b.dircfg.policy ≥ policy_priority .DELETE then
      .ok (updDecision decs idx
        (fun d => { d with action := .DELETE, target := some b.file_info.path }))
    else
      .ok (updDecision decs idx (fun d => { d with action := .NOACTION }))
  | _, _ => .error .keyError

/-- The finalization pass of `check_db`: a `RETIME` whose time equals
the file's current modified time collapses to `NOACTION`. -/
def finalizeDecision (d : Decision) : Decision :=
  if d.action = .RETIME ∧ d.time = some d.file_info.modified then
    { d with action := .NOACTION, time := none }
  else d

/-- The per-hash-group body of `check_db` for a group in which every
file has a matching `DirectoryConfig` (`entries` lists, in database
iteration order, the index, the config resolved by
`_get_directory_config_for_path` and the record).  Produces the
decision stream pushed onto the queue, in order. -/
def check_group (entries : List (Nat × DirectoryConfig × FileInfo)) :
    Except PyErr (List Decision) :=
  let decs := entries.map (fun e =>
    (e.1, Decision.mk e.2.1 e.1 e.2.2 .UNDEFINED none none))
  match decs with
  | [] => .error .valueError
  | d0 :: rest =>
    -- _highest_policy = max(f.dircfg.policy ...): first maximum wins
    let hp := (rest.map (fun x => x.2.dircfg.policy)).foldl
      (fun cur p => if policy_priority p > policy_priority cur then p else cur)
      d0.2.dircfg.policy
    match decs.filter (fun x => decide (x.2.dircfg.policy = hp)) with
    | [] => .error .valueError
    | c0 :: crest =>
      -- _highest_decision: max by (priority, -modified), first maximum wins
      let winner := crest.foldl
        (fun cur x =>
          if x.2.dircfg.priority > cur.2.dircfg.priority ∨
             (x.2.dircfg.priority = cur.2.dircfg.priority ∧
              -x.2.file_info.modified > -cur.2.file_info.modified)
          then x else cur)
        c0
      let widx := winner.1
      match (decs.map Prod.fst).foldlM (fun s i => decisionCaseStep s widx i) decs with
      | .error e => .error e
      | .ok final => .ok (final.map (fun x => finalizeDecision x.2))

/-! ### src/config/misc.py and src/filesweep/config/load.py: size/time
grammar and the bracketed-leaf pattern parser.

The two range regexes `^(?P<l>OPERAND)?..(?P<h>OPERAND)?$` are embedded
as explicit backtracking matchers: the optional `l` group is tried on
prefixes longest first (greedy), the unescaped `..` matches any two
characters, and the `h` group must consume the whole remainder; a group
that does not participate yields `None`, one that matches the empty
string yields `''` — the distinction Python's `re` makes and on which
the behaviour of the loader hinges. -/

def qChar : Char := Char.ofNat 39

def dotChar : Char := Char.ofNat 46

def slashChar : Char := Char.ofNat 47

def isDigitC (c : Char) : Bool := 48 ≤ c.toNat && c.toNat ≤ 57

def charUpper (c : Char) : Char :=
  if 97 ≤ c.toNat ∧ c.toNat ≤ 122 then Char.ofNat (c.toNat - 32) else c

def charLower (c : Char) : Char :=
  if 65 ≤ c.toNat ∧ c.toNat ≤ 90 then Char.ofNat (c.toNat + 32) else c

def strUpper (s : String) : String := String.mk (s.toList.map charUpper)

def strLower (s : String) : String := String.mk (s.toList.map charLower)

def isWs (c : Char) : Bool := c.toNat = 32 || c.toNat = 9 || c.toNat = 10 || c.toNat = 13

/-- Python `str.strip()`. -/
def pyStrip (s : String) : String :=
  String.mk (((s.toList.dropWhile isWs).reverse.dropWhile isWs).reverse)

/-- Maximal run of leading decimal digits. -/
def takeDigits (l : List Char) : List Char × List Char :=
  match l with
  | [] => ([], [])
  | c :: r =>
    if isDigitC c then
      let (d, rest) := takeDigits r
      (c :: d, rest)
    else ([], c :: r)

/-- The number part `\d+(?:\.(?:\d+)?)?` of `SIZE_RE_STR`; `none` when no
leading digit. -/
def sizeNumParse (l : List Char) : Option (List Char × List Char) :=
  let (ds, r) := takeDigits l
  if ds.isEmpty then none
  else
    match r with
    | c :: r' =>
      if c = dotChar then
        let (fs, r'') := takeDigits r'
        some (ds ++ dotChar :: fs, r'')
      else some (ds, r)
    | [] => some (ds, [])

/-- Anchored full match of `SIZE_RE_STR` = `(\d+(?:\.(?:\d+)?)?)([KMGTP]?)I?B?`
on an uppercased string, returning the number group and the (possibly
empty) suffix group.  The optional elements consume disjoint character
classes, so the greedy parse is the regex match. -/
def sizeFullMatch (l : List Char) : Option (List Char × Option Char) :=
  match sizeNumParse l with
  | none => none
  | some (num, r) =>
    let (suf, r) :=
      match r with
      | c :: rr => if c ∈ ['K', 'M', 'G', 'T', 'P'] then (some c, rr) else (none, c :: rr)
      | [] => (none, [])
    let r := match r with
             | c :: rr => if c = 'I' then rr else c :: rr
             | [] => []
    let r := match r with
             | c :: rr => if c = 'B' then rr else c :: rr
             | [] => []
    if r.isEmpty then some (num, suf) else none

/-- The multiplier dict of `parse_size` (`.get(suffix, 1)`; the empty
suffix group maps to 1). -/
def sizeMultiplier (suf : Option Char) : Nat :=
  match suf with
  | none => 1
  | some c =>
    if c = 'K' then 1024
    else if c = 'M' then 1048576
    else if c = 'G' then 1073741824
    else if c = 'T' then 1099511627776
    else if c = 'P' then 1125899906842624
    else 1

def natOfDigits (l : List Char) : Nat :=
  l.foldl (fun a c => a * 10 + (c.toNat - 48)) 0

/-- `int(float(size) * multiplier)` computed exactly (CPython uses binary
floating point; on the integral operands considered here the values
agree). -/
def sizeValue (num : List Char) (suf : Option Char) : Int :=
  let ip := num.takeWhile (fun c => c ≠ dotChar)
  let fp := (num.dropWhile (fun c => c ≠ dotChar)).drop 1
  Int.ofNat ((natOfDigits ip * 10 ^ fp.length + natOfDigits fp) * sizeMultiplier suf
    / 10 ^ fp.length)

/-- `parse_size` of src/config/misc.py on a regex group value:
`None` (a non-participating group) reaches `size_str.upper()` and
raises `AttributeError`; a string that is not a full `SIZE_RE` match
raises `ValueError`. -/
def parse_size (s? : Option String) : Except PyErr Int :=
  match s? with
  | none => .error .attributeError
  | some s =>
    match sizeFullMatch (strUpper s).toList with
    | none => .error .valueError
    | some (num, suf) => .ok (sizeValue num suf)

/-- The seven unit literals of `TIME_RE_STR`, in rigid order. -/
def timeUnits : List (List Char) :=
  [['y'], ['m', 'o'], ['w'], ['d'], ['h'], ['m'], ['s']]

/-- Anchored match of the rigid component sequence
`(?:(\d+)y)?(?:(\d+)mo)?...`: each component consumes its digits and
unit literal or is skipped; the whole input must be consumed.  Returns
the seven digit groups (`none` = component not taken). -/
def timeComponents (l : List Char) (units : List (List Char)) :
    Option (List (Option (List Char))) :=
  match units with
  | [] => if l.isEmpty then some [] else none
  | u :: us =>
    let (ds, r) := takeDigits l
    if ds.isEmpty ∨ ¬ (u.isPrefixOf r) then
      (timeComponents l us).map (fun gs => none :: gs)
    else
      (timeComponents (r.drop u.length) us).map (fun gs => some ds :: gs)

/-- The second weights of `parse_time` (y=365d, mo=30d, w=7d). -/
def timeWeights : List Nat :=
  [31536000, 2592000, 604800, 86400, 3600, 60, 1]

/-- `parse_time` of src/config/misc.py: lowercase, full `TIME_RE` match,
`ValueError` when no component matched, result in nanoseconds. -/
def parse_time (s : String) : Except PyErr Int :=
  match timeComponents (strLower s).toList timeUnits with
  | none => .error .valueError
  | some gs =>
    if gs.all Option.isNone then .error .valueError
    else
      .ok (Int.ofNat ((((gs.zip timeWeights).map
        (fun p => (p.1.map natOfDigits).getD 0 * p.2)).foldl (· + ·) 0)
        * 1000000000))

/-- All (prefix, rest) splits of a string, longest prefix first — the
order in which a greedy leading optional group is tried. -/
def splitsLongestFirst (l : List Char) : List (List Char × List Char) :=
  ((List.range (l.length + 1)).reverse).map (fun n => (l.take n, l.drop n))

/-- Match of `^(?P<l>SIZE)?..(?P<h>SIZE)?$`.  `SIZE` cannot match the
empty string, so a group either matches a nonempty piece or does not
participate (`none`, Python's `None`). -/
def sizeRangeMatch (l : List Char) :
    Option (Option (List Char) × Option (List Char)) :=
  let cands :=
    ((splitsLongestFirst l).filterMap (fun pr =>
      if (sizeFullMatch pr.1).isSome then some (some pr.1, pr.2) else none))
    ++ [(none, l)]
  cands.findSome? (fun c =>
    match c.2 with
    | _ :: _ :: rest2 =>
      if rest2.isEmpty then some (c.1, none)
      else if (sizeFullMatch rest2).isSome then some (c.1, some rest2)
      else none
    | _ => none)

/-- Match of `^(?P<l>TIME)?..(?P<h>TIME)?$`.  `TIME` matches the empty
string, so both groups always participate (possibly with `''`). -/
def timeRangeMatch (l : List Char) :
    Option (List Char × List Char) :=
  let cands := (splitsLongestFirst l).filterMap (fun pr =>
    if (timeComponents pr.1 timeUnits).isSome then some (pr.1, pr.2) else none)
  cands.findSome? (fun c =>
    match c.2 with
    | _ :: _ :: rest2 =>
      if (timeComponents rest2 timeUnits).isSome then some (c.1, rest2) else none
    | _ => none)

/-- The bracketed-leaf branch of `_parse_pattern_fromstr` of
src/filesweep/config/load.py (lines 173–210): name/extension/regex
leaves, the size range, the date range, the ambiguous `[..]`, and the
implicit `None` fall-through for a bracketed string that matches no
branch.  The parenthesised composite branch of the source recurses into
this one and is not needed by the leaf claims settled here. -/
def parseBracketLeaf (s : String) : Except PyErr (Option AnyPattern) :=
  let cs := (pyStrip s).toList
  if cs.length ≥ 2 ∧ cs.head? = some '[' ∧ cs.getLast? = some ']' then
    let ics := (pyStrip (String.mk (cs.drop 1).dropLast)).toList
    if ics = [dotChar, dotChar] then
      -- ambiguous without context
      .ok none
    else if ics.length ≥ 3 ∧ ics.head? = some qChar ∧ ics.getLast? = some qChar ∧
        (ics.drop 1).head? = some dotChar then
      -- `^'(\..*)'$` : extension
      .ok (some (.nm (String.mk (ics.drop 1).dropLast) .extension))
    else if ics.length ≥ 2 ∧ ics.head? = some slashChar ∧ ics.getLast? = some slashChar then
      -- `^/(.*)/$` : regex
      .ok (some (.nm (String.mk (ics.drop 1).dropLast) .regex))
    else if ics.length ≥ 2 ∧ ics.head? = some qChar ∧ ics.getLast? = some qChar then
      -- `^'(.*)'$` : name
      .ok (some (.nm (String.mk (ics.drop 1).dropLast) .name))
    else
      match sizeRangeMatch (strUpper (String.mk ics)).toList with
      | some (lg, hg) => do
        -- `parse_size(m.group('l')) if m.group('l') != '' else None`:
        -- a non-participating group is None, and None != '' is true,
        -- so parse_size(None) is reached for one-sided ranges.
        let min_size_ : Option Int ←
          match lg with
          | some [] => pure none
          | _ => (parse_size (lg.map String.mk)).map some
        let max_size_ : Option Int ←
          match hg with
          | some [] => pure none
          | _ => (parse_size (hg.map String.mk)).map some
        match min_size_, max_size_ with
        | some mn, some mx =>
          if mn > mx then pure none else pure (some (.sz min_size_ max_size_))
        | _, _ => pure (some (.sz min_size_ max_size_))
      | none =>
        match timeRangeMatch ics with
        | some (lg, hg) => do
          let min_time_ : Option Int ←
            (if lg.isEmpty then pure none else (parse_time (String.mk lg)).map some)
          let max_time_ : Option Int ←
            (if hg.isEmpty then pure none else (parse_time (String.mk hg)).map some)
          match min_time_, max_time_ with
          | some mn, some mx =>
            if mn > mx then pure none
            else pure (some (.dt min_time_ max_time_ .modified))
          | _, _ => pure (some (.dt min_time_ max_time_ .modified))
        | none => .ok none
  else
    -- nested-pattern branch of the source, not modelled here
    .error .valueError

/-! ### src/filesweep/filesweep.py: scanner step (`_add_new_files_th`)

One iteration of the worker loop on a single candidate, from the global
pattern check through the `add`/`update` dispatch (lines 224–331).  The
candidate's on-disk bytes are `content`; `inChecked` is membership in
the shared visited set, and `hasDircfg` is whether
`_get_directory_config_for_path` found a responsible config.  A raised
`ItemExistsError`/`ItemNotFoundError`/`TypeError` escapes the worker
(only `PermissionError` and `FileNotFoundError` are caught). -/

/-- Scanner performance knobs consulted by the worker
(`config.performance`). -/
structure PerfCfg where
  chunk_size : Option Nat
  max_read : Option Nat
  small_file_size : Option Int

def processCandidate (rx : String → String → Bool) (now : Int)
    (digest : List Nat → String) (globalPattern : AnyPattern)
    (perf : PerfCfg) (inChecked hasDircfg : Bool) (content : List Nat)
    (db : StatDB) (c : IncompleteFileInfo) : StatDB × Except PyErr Unit :=
  -- pattern matching reads only path/size/timestamps, never the
  -- fingerprint fields, so completing with dummies is sound
  if ¬ (globalPattern.matchFile rx now (c.complete "" "")) then (db, .ok ())
  else if inChecked then (db, .ok ())
  else if ¬ hasDircfg then (db, .ok ())
  else
    let db_entry_bypath := db.get_item_by_path c.path
    let db_entry_bydvin := db.get_item_by_dvin (c.device, c.inode)
    match db_entry_bypath, db_entry_bydvin with
    | _, none =>
      -- new file, add it to the database
      let f16b := read_16b content
      let hash := hash_file digest content perf.chunk_size perf.max_read
      let item := c.complete hash f16b
      let (db, r) := db.add_item item
      (db, r.map (fun _ => ()))
    | none, some (dvIdx, file_info_db) =>
      -- probably moved/renamed: compare stats, then content identity
      let f16b := read_16b content
      if c.size ≠ file_info_db.size ∨ c.modified ≠ file_info_db.modified then
        let hash := hash_file digest content perf.chunk_size perf.max_read
        let item := c.complete hash f16b
        let (db, r) := db.add_item item
        (db, r.map (fun _ => ()))
      else
        let smallOrNoLimit :=
          match perf.small_file_size with
          | none => true
          | some s => decide (c.size ≤ s)
        if smallOrNoLimit then
          -- small file: hash it directly
          let hash := hash_file digest content perf.chunk_size perf.max_read
          if hash = file_info_db.file_hash then
            -- same file, update path
            let item := { file_info_db with path := c.path }
            let (db, r) := db.update_item item (some dvIdx)
            (db, r.map (fun _ => ()))
          else
            let item := c.complete hash f16b
            let (db, r) := db.add_item item
            (db, r.map (fun _ => ()))
        else
          -- large file: check the first 16 bytes
          if f16b = file_info_db.first_16b then
            let item := { file_info_db with path := c.path }
            let (db, r) := db.update_item item (some dvIdx)
            (db, r.map (fun _ => ()))
          else
            let hash := hash_file digest content perf.chunk_size perf.max_read
            let item := c.complete hash f16b
            let (db, r) := db.add_item item
            (db, r.map (fun _ => ()))
    | some _, some _ =>
      -- present by both path and inode: log and skip
      (db, .ok ())

/-! ### Concrete fixtures used by several theorems -/

/-- A regex oracle that never matches (no claim exercises regex leaves). -/
def rxNone : String → String → Bool := fun _ _ => false

/-- A digest returning the constant "H" (the registry is opaque). -/
def digestH : List Nat → String := fun _ => "H"

/-- The empty conjunction pattern: matches every file. -/
def patAll : AnyPattern := .comp .nil false .all

/-- A complete record for path `/d/a`. -/
def fA0 : FileInfo :=
  { path := "/d/a", size := 10, modified := 5, accessed := 6, created := 7,
    inode := 11, device := 1, file_hash := "H", first_16b := "F" }

/-- The record stored under `/d/x` in `dbOne`. -/
def fX0 : FileInfo :=
  { path := "/d/x", size := 42, modified := 7, accessed := 8, created := 9,
    inode := 5, device := 1, file_hash := "H", first_16b := "F16" }

/-- A loaded database holding exactly the record `fX0`, with every
secondary index consistent. -/
def dbOne : StatDB :=
  { _index := 1, _dirty := false,
    file_info := [(1, fX0)],
    path_index := [("/d/x", 1)],
    dvin_index := [((1, 5), 1)],
    hash_index := [("H", [1])],
    f16b_index := [("F16", [1])] }

/-- The scanner candidate at `/d/y`: same (device, inode), size and
modified time as `fX0`, different path. -/
def candY : IncompleteFileInfo :=
  { path := "/d/y", size := 42, modified := 7, accessed := 8, created := 9,
    inode := 5, device := 1 }

/-- A file whose basename `noext` contains no dot at all. -/
def fNoExt : FileInfo :=
  { path := "/d/noext", size := 10, modified := 5, accessed := 6, created := 7,
    inode := 11, device := 1, file_hash := "H", first_16b := "F" }

/-- A file whose accessed timestamp differs from its modified one. -/
def fAcc : FileInfo :=
  { path := "/d/acc", size := 10, modified := 0, accessed := 60, created := 0,
    inode := 31, device := 1, file_hash := "H", first_16b := "F" }

/-! ### Claims about the stat index -/

/-- C1: `add_item` raises `ItemExists` exactly when the path is present,
otherwise inserts the record reachable by all four keys and returns the
new index.  The `ItemExists` direction holds; on an absent path the
subscript assignment `self.hash_index[finfo.file_hash] = idx` raises
`TypeError` (`Bag` has no `__setitem__`), so nothing is ever inserted:
the record is unreachable by hash and by (device, inode). -/
theorem C1_add_item_behaviour :
    (∀ (db : StatDB) (f : FileInfo), (dget? db.path_index f.path).isSome →
      db.add_item f = (db, .error .itemExists))
  ∧ (dget? StatDB.empty.path_index fA0.path = none
     ∧ (StatDB.empty.add_item fA0).2 = .error .typeError
     ∧ (StatDB.empty.add_item fA0).1.hash_index.holds fA0.file_hash 1 = false
     ∧ dget? (StatDB.empty.add_item fA0).1.dvin_index (fA0.device, fA0.inode) = none) := by
  constructor
  · intro db f h
    simp [StatDB.add_item, h]
  · decide

/-- C1 witness: on a database already holding `/d/x`, `add_item` of a
record with that path raises `ItemExists` and leaves the state alone. -/
theorem C1_add_item_behaviour_witness :
    dbOne.add_item fX0 = (dbOne, .error .itemExists) :=
  C1_add_item_behaviour.1 dbOne fX0 (by decide)

/-- C2: the multi-index invariant must hold after every public mutation,
also when it raises.  `add_item` on a fresh database raises `TypeError`
(missing `Bag.__setitem__`) after having filled the primary table and
the path index but not the hash/first-16-bytes/(device, inode) indexes,
so the resulting state violates the invariant. -/
theorem C2_invariant_broken_after_add_item :
    StatDB.empty.consistent = true
  ∧ dbOne.consistent = true
  ∧ (StatDB.empty.add_item fA0).2 = .error .typeError
  ∧ (StatDB.empty.add_item fA0).1.consistent = false := by
  decide

/-- C3: on a candidate whose path is new but whose (device, inode),
size and modified time match a stored record, and whose identity check
succeeds (hash comparison, `small_file_size` unset), the scanner builds
`file_info_db._replace(path=...)` and calls `update_item` — which first
requires the *new* path to be present in the path index and therefore
raises `ItemNotFoundError`; the stored path is never updated. -/
theorem C3_rename_update_raises :
    dbOne.consistent = true
  ∧ dbOne.get_item_by_path candY.path = none
  ∧ (dbOne.get_item_by_dvin (candY.device, candY.inode)).map (fun p => p.2.path)
      = some "/d/x"
  ∧ candY.size = fX0.size
  ∧ candY.modified = fX0.modified
  ∧ hash_file digestH [1, 2, 3] none none = fX0.file_hash
  ∧ processCandidate rxNone 0 digestH patAll
      { chunk_size := none, max_read := none, small_file_size := none }
      false true [1, 2, 3] dbOne candY
      = (dbOne, .error .itemNotFound) := by
  decide

/-! ### Claims about the pattern algebra -/

/-- C5 counterexample: the basename of `/d/noext` contains no dot, yet
the extension pattern `".*"` matches it (the claim states the match
must return false for such a file). -/
theorem C5_star_extension_counterexample :
    ((pathName fNoExt.path).toList.all (fun ch => ch ≠ dotChar)) = true
  ∧ ¬ (NamePattern_match rxNone ".*" .extension fNoExt = false) := by
  decide

/-- C5 (amended): a `NamePattern` of kind extension with pattern `".*"`
matches every file, also files whose basename contains no dot — the
source returns `True` before ever looking at the basename. -/
theorem C5_star_extension_matches_every_file
    (rx : String → String → Bool) (f : FileInfo) :
    NamePattern_match rx ".*" .extension f = true := by
  simp [NamePattern_match]

/-- C7: `DatePattern.match` computes `time_ns() - file.modified`
whatever the pattern kind is; a pattern of kind `accessed` therefore
disagrees with the spec semantics on a file whose accessed and modified
timestamps differ, and the match result never depends on the kind. -/
theorem C7_datepattern_ignores_kind :
    DatePattern_match (some 0) (some 50) .accessed 100 fAcc = false
  ∧ spec_DatePattern_match (some 0) (some 50) .accessed 100 fAcc = true
  ∧ (∀ (mn mx : Option Int) (t₁ t₂ : DPType) (now : Int) (f : FileInfo),
      DatePattern_match mn mx t₁ now f = DatePattern_match mn mx t₂ now f) := by
  refine ⟨by decide, by decide, ?_⟩
  intro mn mx t₁ t₂ now f
  rfl

/-! ### Claims about the pattern parser -/

/-- C6: parsing `[s..]` and `[..s]` for a size operand `s` does not
yield a one-sided size leaf: the non-participating regex group is
`None`, `None != ''` is true, and `parse_size(None)` calls
`None.upper()`, raising `AttributeError`.  The bare `[..]` does produce
the null pattern. -/
theorem C6_one_sided_size_range :
    parseBracketLeaf "[1KB..]" = .error .attributeError
  ∧ parseBracketLeaf "[..1KB]" = .error .attributeError
  ∧ parseBracketLeaf "[..]" = .ok none := by
  exact ⟨rfl, rfl, rfl⟩

/-! ### Claims about the fingerprint primitives -/

/-- Modelled from the spec: output byte `i` of `first_16b` is the XOR
over `j ∈ {0,1,2,3}` of `rotate_left_8bit(chunk[j][i], (i+j) mod 8)`. -/
def res16Spec (c : List Nat) : List Nat :=
  (List.range 16).map (fun i =>
    ((rotate_left_8bit ((chunk16 c 0).getD i 0) ((i + 0) % 8) ^^^
      rotate_left_8bit ((chunk16 c 1).getD i 0) ((i + 1) % 8)) ^^^
      rotate_left_8bit ((chunk16 c 2).getD i 0) ((i + 2) % 8)) ^^^
      rotate_left_8bit ((chunk16 c 3).getD i 0) ((i + 3) % 8))

/-- The `j`-loop of `read_16b` unfolded. -/
lemma res16_explicit (c : List Nat) : res16 c = (List.range 16).map (fun i =>
    (((0 ^^^ rotByte ((chunk16 c 0).getD i 0) ((i + 0) % 8)) ^^^
      rotByte ((chunk16 c 1).getD i 0) ((i + 1) % 8)) ^^^
      rotByte ((chunk16 c 2).getD i 0) ((i + 2) % 8)) ^^^
      rotByte ((chunk16 c 3).getD i 0) ((i + 3) % 8)) := rfl

/-- On byte values and rotation counts below 8, the source's rotation
expression agrees with the spec's `rotate_left_8bit` and stays below
256. -/
lemma rotByte_spec : ∀ x < 256, ∀ n < 8,
    rotByte x n = rotate_left_8bit x n ∧ rotByte x n < 256 := by decide

lemma chunk16_mem_lt (c : List Nat) (h : ∀ b ∈ c, b < 256) (j : Nat) :
    ∀ b ∈ chunk16 c j, b < 256 := by
  intro b hb
  simp only [chunk16] at hb
  rcases List.mem_append.mp hb with hb | hb
  · exact h _ (List.mem_of_mem_drop (List.mem_of_mem_take hb))
  · rw [List.eq_of_mem_replicate hb]
    omega

lemma chunk16_getD_lt (c : List Nat) (h : ∀ b ∈ c, b < 256) (j i : Nat) :
    (chunk16 c j).getD i 0 < 256 := by
  rcases Nat.lt_or_ge i (chunk16 c j).length with hi | hi
  · rw [List.getD_eq_getElem _ _ hi]
    exact chunk16_mem_lt c h j _ (List.getElem_mem hi)
  · rw [List.getD_eq_default _ _ hi]
    omega

lemma res16_lt (c : List Nat) (h : ∀ b ∈ c, b < 256) :
    ∀ b ∈ res16 c, b < 256 := by
  intro b hb
  rw [res16_explicit] at hb
  simp only [List.mem_map, List.mem_range] at hb
  obtain ⟨i, _, rfl⟩ := hb
  have h256 : (256 : Nat) = 2 ^ 8 := by norm_num
  have hr : ∀ j : Nat, rotByte ((chunk16 c j).getD i 0) ((i + j) % 8) < 256 :=
    fun j => (rotByte_spec _ (chunk16_getD_lt c h j i) _ (Nat.mod_lt _ (by omega))).2
  rw [h256] at hr ⊢
  exact Nat.xor_lt_two_pow (Nat.xor_lt_two_pow (Nat.xor_lt_two_pow
    (by simpa using hr 0) (hr 1)) (hr 2)) (hr 3)

lemma res16_eq_spec (c : List Nat) (h : ∀ b ∈ c, b < 256) :
    res16 c = res16Spec c := by
  rw [res16_explicit]
  unfold res16Spec
  apply List.map_congr_left
  intro i _
  have hr : ∀ j : Nat, rotByte ((chunk16 c j).getD i 0) ((i + j) % 8)
      = rotate_left_8bit ((chunk16 c j).getD i 0) ((i + j) % 8) :=
    fun j => (rotByte_spec _ (chunk16_getD_lt c h j i) _ (Nat.mod_lt _ (by omega))).1
  rw [Nat.zero_xor, hr 0, hr 1, hr 2, hr 3]

lemma chunk16_take64 (c : List Nat) (j : Nat) (hj : j < 4) :
    chunk16 (c.take 64) j = chunk16 c j := by
  simp only [chunk16]
  rw [List.drop_take, List.take_take, Nat.min_eq_left (by omega)]

lemma res16_take64 (c : List Nat) : res16 (c.take 64) = res16 c := by
  rw [res16_explicit, res16_explicit]
  simp only [chunk16_take64 c 0 (by omega), chunk16_take64 c 1 (by omega),
    chunk16_take64 c 2 (by omega), chunk16_take64 c 3 (by omega)]

lemma read_16b_take64 (c : List Nat) : read_16b c = read_16b (c.take 64) := by
  unfold read_16b
  rw [res16_take64]

lemma flatten_byteToHex_length (l : List Nat) :
    ((l.map byteToHex).flatten).length = 2 * l.length := by
  induction l with
  | nil => simp
  | cons x xs ih =>
    show (byteToHex x ++ (xs.map byteToHex).flatten).length = 2 * (x :: xs).length
    rw [List.length_append, ih]
    simp [byteToHex]
    omega

lemma hexChar_hex : ∀ n < 16, hexChar n ∈ "0123456789abcdef".toList := by decide

/-- C9: `read_16b` returns a 32-character lowercase hex string; its
bytes follow the spec's rotate-XOR formula; the result depends only on
the first 64 bytes of the file, hence is deterministic and equal for
any two contents sharing those bytes. -/
theorem C9_read_16b_contract (c : List Nat) (h : ∀ b ∈ c, b < 256) :
    (read_16b c).length = 32
  ∧ (∀ ch ∈ (read_16b c).toList, ch ∈ "0123456789abcdef".toList)
  ∧ res16 c = res16Spec c
  ∧ read_16b c = read_16b (c.take 64)
  ∧ (∀ c₂, c.take 64 = c₂.take 64 → read_16b c = read_16b c₂) := by
  refine ⟨?_, ?_, res16_eq_spec c h, read_16b_take64 c, ?_⟩
  · show (String.mk (((res16 c).map byteToHex).flatten)).length = 32
    have hdata : (String.mk (((res16 c).map byteToHex).flatten)).length
        = (((res16 c).map byteToHex).flatten).length := rfl
    rw [hdata, flatten_byteToHex_length]
    simp [res16]
  · intro ch hch
    have hch' : ch ∈ ((res16 c).map byteToHex).flatten := hch
    rw [List.mem_flatten] at hch'
    obtain ⟨l, hl, hchl⟩ := hch'
    rw [List.mem_map] at hl
    obtain ⟨b, hb, rfl⟩ := hl
    have hblt : b < 256 := res16_lt c h b hb
    simp only [byteToHex, List.mem_cons, List.not_mem_nil, or_false] at hchl
    rcases hchl with rfl | rfl
    · exact hexChar_hex (b / 16) (by omega)
    · exact hexChar_hex (b % 16) (by omega)
  · intro c₂ he
    rw [read_16b_take64 c, he, ← read_16b_take64 c₂]

/-- C9 witness: the contract instantiated at the concrete content
`[255, 1, 2]` (whose fingerprint is `ff0208…0`). -/
theorem C9_read_16b_contract_witness :
    (read_16b [255, 1, 2]).length = 32
  ∧ (∀ ch ∈ (read_16b [255, 1, 2]).toList, ch ∈ "0123456789abcdef".toList)
  ∧ res16 [255, 1, 2] = res16Spec [255, 1, 2]
  ∧ read_16b [255, 1, 2] = read_16b ([255, 1, 2].take 64)
  ∧ (∀ c₂, [255, 1, 2].take 64 = c₂.take 64 → read_16b [255, 1, 2] = read_16b c₂) :=
  C9_read_16b_contract [255, 1, 2] (by decide)

/-- The byte stream fed to the digest under a byte cap: whole chunks
until the cumulative count reaches the cap or the file ends. -/
lemma fedLoop_nil (c : Nat) (mr : Option Nat) (r : Nat) : fedLoop [] c mr r = [] := by
  rw [fedLoop]
  simp

lemma fedLoop_formula (c m : Nat) (hc : 1 ≤ c) :
    ∀ (n : Nat) (content : List Nat), content.length ≤ n → ∀ r, r < m →
      fedLoop content c (some m) r
        = content.take (min content.length (c * ((m - r + c - 1) / c))) := by
  intro n
  induction n with
  | zero =>
    intro content hlen r _
    have hnil : content = [] := List.length_eq_zero.mp (Nat.le_zero.mp hlen)
    subst hnil
    rw [fedLoop_nil]
    simp
  | succ n ih =>
    intro content hlen r hr
    by_cases hnil : content = []
    · subst hnil
      rw [fedLoop_nil]
      simp
    · have hL : 0 < content.length := List.length_pos.mpr hnil
      have hne : ¬ ((content.take c).isEmpty = true) := by
        simp only [List.isEmpty_iff, List.take_eq_nil_iff]
        push_neg
        exact ⟨by omega, hnil⟩
      rw [fedLoop, dif_neg hne]
      have hlen_take : (content.take c).length = min c content.length :=
        List.length_take c content
      by_cases hstop : m ≤ r + (content.take c).length
      · rw [if_pos (by simpa using hstop)]
        have hK : (m - r + c - 1) / c = 1 := by
          rw [hlen_take] at hstop
          apply Nat.div_eq_of_lt_le <;> omega
        rw [hK, mul_one]
        apply List.take_eq_take.mpr
        omega
      · rw [if_neg (by simpa using hstop)]
        rcases le_or_lt c content.length with hcL | hcL
        · -- a full chunk was read and the cap is not yet reached
          have hlen2 : (content.take c).length = c := by
            rw [hlen_take]
            omega
          rw [hlen2]
          rw [ih (content.drop c) (by simp [List.length_drop]; omega) (r + c) (by
            rw [hlen2] at hstop
            omega)]
          rw [List.length_drop]
          have h1 : m - r + c - 1 = (m - (r + c) + c - 1) + c := by
            rw [hlen2] at hstop
            omega
          have hKsplit : c * ((m - r + c - 1) / c) = c + c * ((m - (r + c) + c - 1) / c) := by
            rw [h1, Nat.add_div_right _ (by omega)]
            ring
          rw [← List.take_add]
          apply List.take_eq_take.mpr
          generalize c * ((m - r + c - 1) / c) = k1 at hKsplit ⊢
          generalize c * ((m - (r + c) + c - 1) / c) = k2 at hKsplit ⊢
          omega
        · -- the file ran out before the chunk filled up
          have htake : content.take c = content := List.take_of_length_le (by omega)
          have hdrop : content.drop c = [] := by
            apply List.drop_eq_nil_of_le
            omega
          rw [htake, hdrop, fedLoop_nil, List.append_nil, eq_comm]
          apply List.take_of_length_le
          have hK1 : 1 ≤ (m - r + c - 1) / c := by
            apply (Nat.le_div_iff_mul_le (by omega)).mpr
            omega
          have hcK : c ≤ c * ((m - r + c - 1) / c) := by
            calc c = c * 1 := by ring
            _ ≤ c * ((m - r + c - 1) / c) := Nat.mul_le_mul_left c hK1
          generalize c * ((m - r + c - 1) / c) = k1 at hcK ⊢
          omega

lemma fedBytes_formula (content : List Nat) (cs mr : Nat)
    (hcs : 1 ≤ cs) (hmr : 1 ≤ mr) :
    fedBytes content (some cs) (some mr)
      = content.take (min content.length (cs * ((mr + cs - 1) / cs))) := by
  have heff : effChunk (some cs) = cs := by
    cases cs with
    | zero => omega
    | succ k => rfl
  unfold fedBytes
  rw [heff]
  have hthis := fedLoop_formula cs mr hcs content.length content le_rfl 0 (by omega)
  simpa using hthis

/-- C10: with a positive byte cap and a positive configured chunk size,
`hash_file` feeds whole chunks until the cumulative reads reach the
cap, so the digest input is exactly the first
`min(file_size, chunk_size * ceil(max_read / chunk_size))` bytes of the
file; consequently two chunk sizes can give different hashes for the
same file and cap. -/
theorem C10_hash_file_cap (content : List Nat) (cs mr : Nat)
    (hcs : 1 ≤ cs) (hmr : 1 ≤ mr) :
    fedBytes content (some cs) (some mr)
      = content.take (min content.length (cs * ((mr + cs - 1) / cs)))
  ∧ hash_file (fun bs => toString bs) (List.range 20) (some 3) (some 4)
      ≠ hash_file (fun bs => toString bs) (List.range 20) (some 5) (some 4) := by
  refine ⟨fedBytes_formula content cs mr hcs hmr, ?_⟩
  unfold hash_file
  rw [fedBytes_formula (List.range 20) 3 4 (by omega) (by omega),
      fedBytes_formula (List.range 20) 5 4 (by omega) (by omega)]
  decide

/-- C10 witness: the cap formula instantiated at a 3-byte file read in
2-byte chunks with a 3-byte cap. -/
theorem C10_hash_file_cap_witness :
    fedBytes [5, 6, 7] (some 2) (some 3)
      = [5, 6, 7].take (min ([5, 6, 7] : List Nat).length (2 * ((3 + 2 - 1) / 2)))
  ∧ hash_file (fun bs => toString bs) (List.range 20) (some 3) (some 4)
      ≠ hash_file (fun bs => toString bs) (List.range 20) (some 5) (some 4) :=
  C10_hash_file_cap [5, 6, 7] 2 3 (by omega) (by omega)

/-! ### Claims about the decision engine -/

/-- KEEP config of priority 1 at `/a`. -/
def dcA : DirectoryConfig :=
  { path := "/a", priority := 1, include_subdirs := .flag true, policy := .KEEP,
    rename := false, pattern := none, skip_subdirs := [], hidden := false }

/-- DELETE config of priority 0 at `/b`. -/
def dcB : DirectoryConfig :=
  { path := "/b", priority := 0, include_subdirs := .flag true, policy := .DELETE,
    rename := false, pattern := none, skip_subdirs := [], hidden := false }

/-- DELETE config with `rename=true` at `/r`. -/
def dcR : DirectoryConfig :=
  { path := "/r", priority := 0, include_subdirs := .flag true, policy := .DELETE,
    rename := true, pattern := none, skip_subdirs := [], hidden := false }

def fDupA : FileInfo :=
  { path := "/a/x", size := 10, modified := 5, accessed := 6, created := 7,
    inode := 11, device := 1, file_hash := "H", first_16b := "F" }

def fDupB : FileInfo :=
  { path := "/b/y", size := 10, modified := 8, accessed := 6, created := 7,
    inode := 12, device := 1, file_hash := "H", first_16b := "F" }

def fT1 : FileInfo :=
  { path := "/r/one", size := 10, modified := 100, accessed := 6, created := 7,
    inode := 21, device := 1, file_hash := "H", first_16b := "F" }

def fT2 : FileInfo :=
  { path := "/r/two", size := 10, modified := 200, accessed := 6, created := 7,
    inode := 22, device := 1, file_hash := "H", first_16b := "F" }

/-- C4 counterexample: in the KEEP(priority 1) / DELETE(priority 0)
two-file group, the engine gives the winner `NOACTION`, not the `KEEP`
the claim states (the `a == b` fall-through of the match assigns
`NOACTION` to the highest-priority file). -/
theorem C4_keep_delete_counterexample :
    (check_group [(1, dcA, fDupA), (2, dcB, fDupB)]).map
        (fun l => l.map (fun d => (d.action, d.target)))
      = .ok [(Action.NOACTION, none), (Action.DELETE, some "/a/x")]
  ∧ Action.NOACTION ≠ Action.KEEP := by
  decide

/-- C4 (amended): for a two-file group with one file under a KEEP
config of priority 1 and the other under a DELETE config of priority 0
rooted elsewhere, the engine assigns `NOACTION` to the first file (the
winner) and `DELETE` targeting the first file's path to the second. -/
theorem C4_winner_noaction_loser_delete
    (c1 c2 : DirectoryConfig) (f1 f2 : FileInfo)
    (h1 : c1.policy = .KEEP) (h2 : c1.priority = 1)
    (h3 : c2.policy = .DELETE) (h4 : c2.priority = 0)
    (hp : c1.path ≠ c2.path) :
    check_group [(1, c1, f1), (2, c2, f2)]
      = .ok [{ dircfg := c1, file_index := 1, file_info := f1, action := .NOACTION,
               target := none, time := none },
             { dircfg := c2, file_index := 2, file_info := f2, action := .DELETE,
               target := some f1.path, time := none }] := by
  simp [check_group, decisionCaseStep, updDecision, dget?, dset, finalizeDecision,
    h1, h2, h3, h4, hp, Ne.symm hp, policy_priority, Decision.mk.injEq,
    List.foldlM, bind, Except.bind, pure, Except.pure]

/-- C4 witness: the amended statement instantiated at the concrete
KEEP/DELETE configurations and duplicate pair. -/
theorem C4_winner_noaction_loser_delete_witness :
    check_group [(1, dcA, fDupA), (2, dcB, fDupB)]
      = .ok [{ dircfg := dcA, file_index := 1, file_info := fDupA, action := .NOACTION,
               target := none, time := none },
             { dircfg := dcB, file_index := 2, file_info := fDupB, action := .DELETE,
               target := some fDupA.path, time := none }] :=
  C4_winner_noaction_loser_delete dcA dcB fDupA fDupB (by decide) (by decide)
    (by decide) (by decide) (by decide)

/-- C8: in a two-file group under one `rename=true` DELETE config with
modified times `T1 < T2`, whatever the group order, the winner (the
older file) gets `RETIME` to `T2` and the other file `DELETE` targeting
the winner's path; and in general a `RETIME` whose final time equals
the file's modified time collapses to `NOACTION`. -/
theorem C8_rename_retime_group (d : DirectoryConfig) (f1 f2 : FileInfo)
    (hren : d.rename = true) (hpol : d.policy = .DELETE)
    (hmt : f1.modified < f2.modified) :
    check_group [(1, d, f1), (2, d, f2)]
      = .ok [{ dircfg := d, file_index := 1, file_info := f1, action := .RETIME,
               target := none, time := some f2.modified },
             { dircfg := d, file_index := 2, file_info := f2, action := .DELETE,
               target := some f1.path, time := none }]
  ∧ check_group [(2, d, f2), (1, d, f1)]
      = .ok [{ dircfg := d, file_index := 2, file_info := f2, action := .DELETE,
               target := some f1.path, time := none },
             { dircfg := d, file_index := 1, file_info := f1, action := .RETIME,
               target := none, time := some f2.modified }]
  ∧ (∀ dec : Decision, dec.action = .RETIME → dec.time = some dec.file_info.modified →
      finalizeDecision dec = { dec with action := .NOACTION, time := none }) := by
  have hne : f2.modified ≠ f1.modified := by omega
  have hnlt : ¬ (f2.modified < f1.modified) := by omega
  have hmax1 : max f1.modified f2.modified = f2.modified := max_eq_right (le_of_lt hmt)
  have hmax2 : max f2.modified f1.modified = f2.modified := max_eq_left (le_of_lt hmt)
  refine ⟨?_, ?_, ?_⟩
  · simp [check_group, decisionCaseStep, updDecision, dget?, dset, finalizeDecision,
      hren, hpol, hne, hnlt, hmt, hmax1, hmax2, policy_priority, Decision.mk.injEq,
      List.foldlM, bind, Except.bind, pure, Except.pure]
  · simp [check_group, decisionCaseStep, updDecision, dget?, dset, finalizeDecision,
      hren, hpol, hne, hnlt, hmt, hmax1, hmax2, policy_priority, Decision.mk.injEq,
      List.foldlM, bind, Except.bind, pure, Except.pure]
  · intro dec h1 h2
    simp [finalizeDecision, h1, h2]

/-- C8 witness: the rename/retime behaviour instantiated at the
concrete `/r` configuration with modified times 100 < 200. -/
theorem C8_rename_retime_group_witness :
    check_group [(1, dcR, fT1), (2, dcR, fT2)]
      = .ok [{ dircfg := dcR, file_index := 1, file_info := fT1, action := .RETIME,
               target := none, time := some fT2.modified },
             { dircfg := dcR, file_index := 2, file_info := fT2, action := .DELETE,
               target := some fT1.path, time := none }]
  ∧ check_group [(2, dcR, fT2), (1, dcR, fT1)]
      = .ok [{ dircfg := dcR, file_index := 2, file_info := fT2, action := .DELETE,
               target := some fT1.path, time := none },
             { dircfg := dcR, file_index := 1, file_info := fT1, action := .RETIME,
               target := none, time := some fT2.modified }]
  ∧ (∀ dec : Decision, dec.action = .RETIME → dec.time = some dec.file_info.modified →
      finalizeDecision dec = { dec with action := .NOACTION, time := none }) :=
  C8_rename_retime_group dcR fT1 fT2 (by decide) (by decide) (by decide)

end FileSweep
